import Mathlib

/-!
Shallow embedding of the Rhodium core subsystems and proofs of the spec's
claims about them.

Sources embedded:
* `src/chiron.py` — `hexid`, `unhexid`, `get_secret`, `generate_item_id`;
* `src/hestia.py` — the duplicated `hexid`, `unhexid`, `generate_item_id`
  and the `api_today` route;
* `src/chaos.py` — `ensure_parameter`, `ensure_counter`,
  `initialize_parameters`, the `Seed` class;
* `src/hermes.py` — the `api_today` route.

Machine integers are modelled as `Nat`/`Int`; byte strings as `List Nat`
(each element < 256); fallible Python code as `Option`/`Except`; the
database (`SysParameters`, `Counters`, `items` tables) as explicit state
threaded through the functions.  Wall-clock inputs (`datetime.now`) and
random inputs (`secrets.randbits`, `os.urandom`) are passed as explicit
parameters.
-/

deriving instance DecidableEq for Except

/-! ### Python builtin models: `int.to_bytes`, `binascii`, `bytes.fromhex` -/

/-- Big-endian digits of `n` in base 256, padded/truncated from the left to
width `k`.  This is the digit sequence produced by Python's
`int.to_bytes(k, "big")` when `n < 256 ^ k`. -/
def toBytesBE : Nat → Nat → List Nat
  | 0, _ => []
  | k + 1, n => n / 256 ^ k :: toBytesBE k (n % 256 ^ k)

/-- Model of Python's `n.to_bytes(k, "big")` on a nonnegative `n`:
returns `none` exactly when Python raises `OverflowError`. -/
def toBytes? (k n : Nat) : Option (List Nat) :=
  if n < 256 ^ k then some (toBytesBE k n) else none

/-- Model of Python's `n.to_bytes(k, "big")` on an `int` that may be
negative (the `Counters.value` column is a signed integer): Python raises
`OverflowError` when `n < 0` or `n ≥ 256 ^ k`. -/
def toBytesInt? (k : Nat) (n : Int) : Option (List Nat) :=
  if 0 ≤ n ∧ n < (256 : Int) ^ k then some (toBytesBE k n.toNat) else none

/-- Lowercase hexadecimal digit character for `n < 16`, as produced by
`binascii.hexlify` / `secrets.token_hex`. -/
def hexDigitChar (n : Nat) : Char :=
  if n < 10 then Char.ofNat (48 + n) else Char.ofNat (87 + n)

/-- Value of a hexadecimal digit character.  Python's `binascii.unhexlify`
and `bytes.fromhex` accept both lowercase and uppercase digits. -/
def hexDigitVal? (c : Char) : Option Nat :=
  if '0' ≤ c ∧ c ≤ '9' then some (c.toNat - 48)
  else if 'a' ≤ c ∧ c ≤ 'f' then some (c.toNat - 87)
  else if 'A' ≤ c ∧ c ≤ 'F' then some (c.toNat - 55)
  else none

/-- Model of `binascii.hexlify(b)`: two lowercase hex characters per byte. -/
def hexlifyChars : List Nat → List Char
  | [] => []
  | b :: rest => hexDigitChar (b / 16) :: hexDigitChar (b % 16) :: hexlifyChars rest

/-- Model of `binascii.unhexlify(s)`: parses pairs of hex digits into bytes;
`none` exactly when Python raises `binascii.Error` (odd-length input or a
non-hexadecimal character). -/
def unhexlifyChars? : List Char → Option (List Nat)
  | [] => some []
  | [_] => none
  | c1 :: c2 :: rest =>
    match hexDigitVal? c1, hexDigitVal? c2, unhexlifyChars? rest with
    | some h, some l, some tail => some ((16 * h + l) :: tail)
    | _, _, _ => none

/-- Model of `bytes.fromhex(s)` on whitespace-free input (every stored
`node_id` is a 4-hex-character string, so the whitespace-skipping that
`bytes.fromhex` additionally performs between byte pairs never arises). -/
def bytesFromhex? (s : String) : Option (List Nat) :=
  unhexlifyChars? s.data

/-- Model of Python's lexicographic `<=` on `bytes` (shorter operand first
when it is a strict prefix). -/
def bytesLe : List Nat → List Nat → Bool
  | [], _ => true
  | _ :: _, [] => false
  | a :: as, b :: bs => decide (a < b) || (decide (a = b) && bytesLe as bs)

/-! ### The database state: `SysParameters` and `Counters` tables -/

/-- Primary-key lookup in a key/value table (models `session.get(T, key)`). -/
def alookup {α : Type} : List (String × α) → String → Option α
  | [], _ => none
  | p :: rest, k => if p.1 = k then some p.2 else alookup rest k

/-- Row update by key (models `UPDATE T SET value = v WHERE T.key = k`).
The `last_change` column, which the source also sets to the current time,
carries no information any claim depends on and is not modelled. -/
def aset {α : Type} (l : List (String × α)) (k : String) (v : α) : List (String × α) :=
  l.map fun p => if p.1 = k then (p.1, v) else p

/-- The durable per-installation state: the `SysParameters` table
(string values) and the `Counters` table (integer values). -/
structure Store where
  sysParameters : List (String × String)
  counters : List (String × Int)
deriving DecidableEq

/-- Session update of the `Counters` table (models the `session.execute(update
(Counters).where(Counters.key == k).values(value=v, ...))` statement). -/
def Store.setCounter (s : Store) (k : String) (v : Int) : Store :=
  { s with counters := aset s.counters k v }

namespace Chiron

/-- Embedding of `chiron.hexid`: `binascii.hexlify(b).decode("ascii")`. -/
def hexid (b : List Nat) : String :=
  ⟨hexlifyChars b⟩

/-- Characters Python's `str.strip()` removes from both ends. -/
def pyWhitespace (c : Char) : Bool :=
  c = ' ' || c = '\t' || c = '\n' || c = '\r' || c = '\x0b' || c = '\x0c'

/-- Model of Python's `str.strip()`: drop leading and trailing whitespace. -/
def pyStrip (s : String) : String :=
  ⟨((s.data.dropWhile pyWhitespace).reverse.dropWhile pyWhitespace).reverse⟩

/-- Whether `c` is one of the characters `[0-9a-f]`. -/
def isLowerHexDigit (c : Char) : Bool :=
  ('0' ≤ c && c ≤ '9') || ('a' ≤ c && c ≤ 'f')

/-- Model of `re.match(r'^[0-9a-f]{64}$', s) is not None`.  The inputs it is
applied to are already stripped, so they never end in a newline and `$` means
end of string. -/
def matchesSecretFormat (s : String) : Bool :=
  s.data.length == 64 && s.data.all isLowerHexDigit

/-- The state of the `rhodium_secret` file: whether it exists and, if so, its
text content. -/
structure SecretFile where
  present : Bool
  content : String
deriving DecidableEq

/-- Embedding of `chiron.unhexid`.  The inner `raise ValueError("Invalid item
ID length")` on a length mismatch and every `binascii.Error` are caught by the
surrounding `except Exception`, which re-raises `ValueError("Invalid item ID")`;
only that externally visible error is modelled. -/
def unhexid (s : String) : Except String (List Nat) :=
  match unhexlifyChars? s.data with
  | none => Except.error "Invalid item ID"
  | some b => if b.length ≠ 16 then Except.error "Invalid item ID" else Except.ok b

/-- Embedding of `chiron.get_secret`.  `randomBytes` models the 32 bytes of
`os.urandom` behind `secrets.token_hex(32)`.  `sys.exit(1)` on a corrupt
secret is the `Except.error` case.  The filesystem-failure paths
(`PermissionError`/`OSError` on read or write, also fatal) and the
`chmod(0o600)` call are outside the model. -/
def get_secret (fs : SecretFile) (regen : Bool) (randomBytes : List Nat) :
    Except String String × SecretFile :=
  if regen || !fs.present then
    let secret : String := ⟨hexlifyChars randomBytes⟩
    (Except.ok secret, { present := true, content := secret })
  else
    let secret := pyStrip fs.content
    if matchesSecretFormat secret then
      (Except.ok secret, fs)
    else
      (Except.error "FATAL: Secret file corrupted (invalid format)", fs)

/-- Embedding of `chiron.generate_item_id`.  `tsMs` is the value of
`int(datetime.now(timezone.utc).timestamp() * 1000)` at the call, passed as an
explicit input.  The returned store reflects the `UPDATE` of
`Counters.primary_counter` executed on the session. -/
def generate_item_id (tsMs : Nat) (s : Store) : Except String (List Nat × Store) :=
  match toBytes? 7 tsMs with
  | none => Except.error "OverflowError"
  | some ts_bytes =>
    match alookup s.sysParameters "node_id" with
    | none => Except.error "Database missing SysParameters.node_id"
    | some node_id_hex =>
      match bytesFromhex? node_id_hex with
      | none => Except.error "ValueError"
      | some mac_bytes =>
        match alookup s.counters "primary_counter" with
        | none => Except.error "Database missing Counters.primary_counter"
        | some ctr_value =>
          let new_value := ctr_value + 1
          let s1 := Store.setCounter s "primary_counter" new_value
          match toBytesInt? 7 new_value with
          | none => Except.error "OverflowError"
          | some ctr_bytes => Except.ok (ts_bytes ++ mac_bytes ++ ctr_bytes, s1)

end Chiron

namespace Hestia

/-- Embedding of `hestia.hexid`, the duplicate of `chiron.hexid`. -/
def hexid (b : List Nat) : String :=
  ⟨hexlifyChars b⟩

/-- Embedding of `hestia.unhexid`, the duplicate of `chiron.unhexid`.  Its
inner `raise ValueError` carries no message (chiron's says "Invalid item ID
length"), but both are caught by `except Exception` and re-raised as
`ValueError("Invalid item ID")`, so the observable behaviour is the same. -/
def unhexid (s : String) : Except String (List Nat) :=
  match unhexlifyChars? s.data with
  | none => Except.error "Invalid item ID"
  | some b => if b.length ≠ 16 then Except.error "Invalid item ID" else Except.ok b

/-- Embedding of `hestia.generate_item_id`, the duplicate of
`chiron.generate_item_id` (same statements, same error conditions). -/
def generate_item_id (tsMs : Nat) (s : Store) : Except String (List Nat × Store) :=
  match toBytes? 7 tsMs with
  | none => Except.error "OverflowError"
  | some ts_bytes =>
    match alookup s.sysParameters "node_id" with
    | none => Except.error "Database missing SysParameters.node_id"
    | some node_id_hex =>
      match bytesFromhex? node_id_hex with
      | none => Except.error "ValueError"
      | some mac_bytes =>
        match alookup s.counters "primary_counter" with
        | none => Except.error "Database missing Counters.primary_counter"
        | some ctr_value =>
          let new_value := ctr_value + 1
          let s1 := Store.setCounter s "primary_counter" new_value
          match toBytesInt? 7 new_value with
          | none => Except.error "OverflowError"
          | some ctr_bytes => Except.ok (ts_bytes ++ mac_bytes ++ ctr_bytes, s1)

end Hestia

namespace Chaos

/-- Embedding of `chaos.ensure_parameter`: if the key exists return the stored
value and leave the store untouched, otherwise evaluate the supplier, insert
the row, and return the computed value. -/
def ensure_parameter (s : Store) (key : String) (value_fn : Unit → String) :
    String × Store :=
  match alookup s.sysParameters key with
  | some v => (v, s)
  | none =>
    let v := value_fn ()
    (v, { s with sysParameters := s.sysParameters ++ [(key, v)] })

/-- Embedding of `chaos.ensure_counter`: the `Counters`-table analogue of
`ensure_parameter`. -/
def ensure_counter (s : Store) (key : String) (initial_fn : Unit → Int) :
    Int × Store :=
  match alookup s.counters key with
  | some v => (v, s)
  | none =>
    let v := initial_fn ()
    (v, { s with counters := s.counters ++ [(key, v)] })

/-- Model of the `Seed.hex` method: `f"{value:014x}"`, the 14-hex-digit
zero-padded lowercase rendering of the 56-bit seed. -/
def seedHex14 (v : Nat) : String :=
  ⟨(List.range 14).reverse.map fun i => hexDigitChar (v / 16 ^ i % 16)⟩

/-- Embedding of `chaos.initialize_parameters`.  The `Seed` object is modelled
by its random value `seedVal` (the result of `secrets.randbits(56)`); the
`get_node_id()` result and the `datetime.now` first-boot string are the inputs
`nodeIdV` and `firstBootV`.  `session.commit()` has no effect on the modelled
state. -/
def initialize_parameters (s : Store) (nodeIdV : String) (seedVal : Nat)
    (firstBootV : String) : Store :=
  let s1 := (ensure_parameter s "node_id" fun _ => nodeIdV).2
  let s2 := (ensure_parameter s1 "trng_seed" fun _ => seedHex14 seedVal).2
  let s3 := (ensure_parameter s2 "first_boot" fun _ => firstBootV).2
  ((ensure_counter s3 "primary_counter" fun _ => (seedVal : Int)).2)

/-- The state of a freshly created database: `Base.metadata.create_all` makes
both tables empty before `initialize_parameters` runs. -/
def emptyStore : Store := ⟨[], []⟩

end Chaos

/-! ### Timezone model (`hermes.api_today`, `hestia.api_today`) -/

/-- Microseconds in one hour. -/
def usPerHour : Int := 3600000000

/-- Microseconds in one day. -/
def usPerDay : Int := 86400000000

/-- Microseconds from local midnight to `datetime.time.max`, i.e. to
23:59:59.999999. -/
def timeMaxMicros : Int := 86399999999

/-- An IANA zone as `zoneinfo.ZoneInfo` exposes it to this code: the UTC
offset it assigns at a UTC instant (used by `astimezone`), and the UTC offset
it assigns to naive local wall-clock fields with `fold=0` (used when a naive
`datetime.combine` result is given `tzinfo=zone`).  Offsets and instants are
in microseconds. -/
structure Zone where
  offsetAtInstant : Int → Int
  offsetAtWall : Int → Int

/-- A Python `datetime`: its wall-clock fields (encoded as microseconds since
the epoch read as naive fields) and its UTC offset — `none` for a naive
datetime. -/
structure PyDateTime where
  fields : Int
  utcoffset : Option Int
deriving DecidableEq

/-- The instant an aware `PyDateTime` denotes (what Python's comparison of two
aware datetimes compares). -/
def PyDateTime.instant (d : PyDateTime) : Int :=
  d.fields - d.utcoffset.getD 0

/-- The value SQLAlchemy's SQLite `DateTime` type binds into a query for a
`datetime` parameter: it renders the wall-clock fields and discards
`tzinfo`/offset information. -/
def sqliteBindValue (d : PyDateTime) : Int :=
  d.fields

namespace Hermes

/-- Embedding of the boundary computation in `hermes.api_today`:
`now_user = datetime.now(timezone.utc).astimezone(user_tz)` followed by
`today_end = datetime.combine(now_user.date(), time.max, tzinfo=user_tz)
.astimezone(timezone.utc)`.  `nowUtc` is the current UTC instant in
microseconds. -/
def today_end (z : Zone) (nowUtc : Int) : PyDateTime :=
  let now_user := nowUtc + z.offsetAtInstant nowUtc
  let wall_end := Int.fdiv now_user usPerDay * usPerDay + timeMaxMicros
  { fields := wall_end - z.offsetAtWall wall_end, utcoffset := some 0 }

end Hermes

namespace Hestia

/-- Embedding of the boundary computation in `hestia.api_today`:
`now_user = datetime.now(timezone.utc).astimezone(user_tz)` followed by
`today_end = datetime.combine(now_user.date(), time.max, tzinfo=user_tz)` —
unlike `hermes.api_today`, with no final `.astimezone(timezone.utc)`. -/
def today_end (z : Zone) (nowUtc : Int) : PyDateTime :=
  let now_user := nowUtc + z.offsetAtInstant nowUtc
  let wall_end := Int.fdiv now_user usPerDay * usPerDay + timeMaxMicros
  { fields := wall_end, utcoffset := some (z.offsetAtWall wall_end) }

end Hestia

/-- The end-of-day local wall-clock value (23:59:59.999999 on the zone-local
calendar date of `nowUtc`), shared by the statements below. -/
def endOfDayWall (z : Zone) (nowUtc : Int) : Int :=
  Int.fdiv (nowUtc + z.offsetAtInstant nowUtc) usPerDay * usPerDay + timeMaxMicros

/-- Boundary stated from the spec's words, for comparison with the code:
"23:59:59.999999 in `zone` on the zone-local calendar date corresponding to
`reference_utc_now`", converted to UTC using the zone's offset at that local
wall time (true zone-aware arithmetic). -/
def spec_end_of_day_boundary_utc (z : Zone) (reference_utc_now : Int) : Int :=
  let localNow := reference_utc_now + z.offsetAtInstant reference_utc_now
  let localDate := Int.fdiv localNow usPerDay
  let localEndOfDay := localDate * usPerDay + timeMaxMicros
  localEndOfDay - z.offsetAtWall localEndOfDay

/-- Day index of 2025-03-09 (the 2025 US spring-forward date) since the epoch. -/
def nyMar9 : Int := 20156

/-- Day index of 2025-11-02 (the 2025 US fall-back date) since the epoch. -/
def nyNov2 : Int := 20394

/-- Concrete model of IANA zone America/New_York over the year 2025:
offset −5 h (EST) outside daylight-saving time, −4 h (EDT) between the
transition at 2025-03-09 07:00 UTC (local 02:00→03:00) and the transition at
2025-11-02 06:00 UTC (local 02:00→01:00).  For naive wall-clock fields the
`fold=0` disambiguation assigns EST before local 03:00 on 2025-03-09 and EDT
before local 02:00 on 2025-11-02. -/
def americaNewYork2025 : Zone where
  offsetAtInstant t :=
    if (nyMar9 * 24 + 7) * usPerHour ≤ t ∧ t < (nyNov2 * 24 + 6) * usPerHour then
      -4 * usPerHour
    else
      -5 * usPerHour
  offsetAtWall w :=
    if (nyMar9 * 24 + 3) * usPerHour ≤ w ∧ w < (nyNov2 * 24 + 2) * usPerHour then
      -4 * usPerHour
    else
      -5 * usPerHour

/-! ### The `items` table and the `api_today` query -/

/-- A row of the `items` table, restricted to the columns the `api_today`
query touches.  `due_date` is the stored due timestamp (`none` models SQL
`NULL`) and `priority` the integer priority column. -/
structure ItemRow where
  id : List Nat
  title : String
  status : String
  due_date : Option Int
  priority : Int
deriving DecidableEq

/-- The `WHERE` clause of the `api_today` query (identical in `hermes.py` and
`hestia.py`): `status != "done"` and (`due_date IS NULL` or
`due_date <= today_end`).  Under SQL three-valued logic `NULL <= x` is
`NULL`, which the `IS NULL` disjunct covers. -/
def api_today_filter (todayEnd : Int) (it : ItemRow) : Bool :=
  it.status ≠ "done" &&
    (match it.due_date with
     | none => true
     | some d => d ≤ todayEnd)

/-- Row order requested by the `api_today` query: `ORDER BY priority DESC`
and nothing else. -/
def prioDescRel (a b : ItemRow) : Prop :=
  b.priority ≤ a.priority

instance : DecidableRel prioDescRel := fun a b => Int.decLe b.priority a.priority

instance : IsTotal ItemRow prioDescRel := ⟨fun a b => Int.le_total b.priority a.priority⟩

instance : IsTrans ItemRow prioDescRel := ⟨fun _ _ _ hab hbc => le_trans hbc hab⟩

/-- Embedding of the row selection of `api_today` (identical in `hermes.py`
and `hestia.py`): filter by `api_today_filter`, then sort by priority
descending.  SQLite leaves the relative order of equal-priority rows
unspecified; the model fixes the realizable order in which ties keep their
table-scan (insertion) order, via a stable insertion sort. -/
def api_today_rows (items : List ItemRow) (todayEnd : Int) : List ItemRow :=
  List.insertionSort prioDescRel (items.filter (api_today_filter todayEnd))

/-! ### Unserialized concurrent ID generation -/

/-- Interleaved execution of two concurrent `generate_item_id` calls that the
source permits: `generate_item_id` takes no lock and sets no isolation
directive, so both sessions can run their `session.get(Counters,
"primary_counter")` against the same committed state before either `UPDATE`
commits; SQLite serializes only the row writes themselves, so the second
`UPDATE` then overwrites the first with an identically computed value.  Both
calls' reads therefore see `s`; A's update produces `sA`, and B's update,
applied after it, targets the same key, giving B's counter table. -/
def generate_item_id_race (tsA tsB : Nat) (s : Store) :
    Except String (List Nat × List Nat × Store) :=
  match Chiron.generate_item_id tsA s with
  | Except.error e => Except.error e
  | Except.ok (idA, sA) =>
    match Chiron.generate_item_id tsB s with
    | Except.error e => Except.error e
    | Except.ok (idB, sB) =>
      Except.ok (idA, idB, { sA with counters := sB.counters })

/-! ### Supporting lemmas -/

theorem toBytesBE_length (k : Nat) : ∀ n, (toBytesBE k n).length = k := by
  induction k with
  | zero => intro n; rfl
  | succ k ih => intro n; simp [toBytesBE, ih]

theorem bytesLe_refl (l : List Nat) : bytesLe l l = true := by
  induction l with
  | nil => rfl
  | cons a as ih => simp [bytesLe, ih]

theorem bytesLe_toBytesBE_mono (k : Nat) :
    ∀ {n m : Nat}, n ≤ m → bytesLe (toBytesBE k n) (toBytesBE k m) = true := by
  induction k with
  | zero => intro n m _; rfl
  | succ k ih =>
    intro n m h
    simp only [toBytesBE, bytesLe, Bool.or_eq_true, Bool.and_eq_true, decide_eq_true_eq]
    rcases Nat.lt_or_ge (n / 256 ^ k) (m / 256 ^ k) with hlt | hge
    · exact Or.inl hlt
    · have hdiv : n / 256 ^ k = m / 256 ^ k :=
        Nat.le_antisymm (Nat.div_le_div_right h) hge
      have h1 := Nat.div_add_mod n (256 ^ k)
      have h2 := Nat.div_add_mod m (256 ^ k)
      rw [hdiv] at h1
      have hmod : n % 256 ^ k ≤ m % 256 ^ k := by omega
      exact Or.inr ⟨hdiv, ih hmod⟩

theorem bytesLe_append :
    ∀ {x y u v : List Nat}, x.length = y.length → bytesLe x y = true →
      bytesLe u v = true → bytesLe (x ++ u) (y ++ v) = true := by
  intro x
  induction x with
  | nil =>
    intro y u v hlen _ huv
    cases y with
    | nil => simpa using huv
    | cons b bs => simp at hlen
  | cons a as ih =>
    intro y u v hlen hxy huv
    cases y with
    | nil => simp at hlen
    | cons b bs =>
      simp only [bytesLe, Bool.or_eq_true, Bool.and_eq_true, decide_eq_true_eq] at hxy
      rcases hxy with hlt | ⟨heq, hrest⟩
      · simp [List.cons_append, bytesLe, hlt]
      · subst heq
        simp only [List.cons_append, bytesLe, Bool.or_eq_true, Bool.and_eq_true,
          decide_eq_true_eq]
        exact Or.inr ⟨trivial, ih (by simpa using hlen) hrest huv⟩

theorem alookup_aset_of_mem {α : Type} :
    ∀ (l : List (String × α)) (k : String) (w : α) {v : α},
      alookup l k = some v → alookup (aset l k w) k = some w := by
  intro l
  induction l with
  | nil => intro k w v h; simp [alookup] at h
  | cons p rest ih =>
    intro k w v h
    by_cases hk : p.1 = k
    · simp [alookup, aset, hk]
    · simp only [alookup, if_neg hk] at h
      have hrec := ih k w h
      simp only [aset] at hrec
      simp [alookup, aset, hk, hrec]

/-- Computation law for `Chiron.generate_item_id` on a well-formed store. -/
theorem generate_item_id_eq (tsMs : Nat) (s : Store) (hexStr : String)
    (fp : List Nat) (v : Int)
    (hts : tsMs < 256 ^ 7)
    (hn : alookup s.sysParameters "node_id" = some hexStr)
    (hfp : bytesFromhex? hexStr = some fp)
    (hc : alookup s.counters "primary_counter" = some v)
    (h0 : 0 ≤ v + 1) (h1 : v + 1 < (256 : Int) ^ 7) :
    Chiron.generate_item_id tsMs s =
      Except.ok (toBytesBE 7 tsMs ++ fp ++ toBytesBE 7 (v + 1).toNat,
        Store.setCounter s "primary_counter" (v + 1)) := by
  have hts' : tsMs < 72057594037927936 := by simpa using hts
  have h1' : v + 1 < (72057594037927936 : Int) := by simpa using h1
  simp [Chiron.generate_item_id, toBytes?, toBytesInt?, hts', hn, hfp, hc, h0, h1']

theorem hexDigitVal_hexDigitChar : ∀ {n : Nat}, n < 16 →
    hexDigitVal? (hexDigitChar n) = some n := by
  intro n h
  interval_cases n <;> decide

theorem unhexlify_hexlify :
    ∀ (b : List Nat), (∀ x ∈ b, x < 256) → unhexlifyChars? (hexlifyChars b) = some b := by
  intro b
  induction b with
  | nil => intro _; rfl
  | cons a as ih =>
    intro hb
    have ha : a < 256 := hb a (by simp)
    have h1 : a / 16 < 16 := by omega
    have h2 : a % 16 < 16 := by omega
    have ihs := ih fun x hx => hb x (by simp [hx])
    simp [hexlifyChars, unhexlifyChars?, hexDigitVal_hexDigitChar h1,
      hexDigitVal_hexDigitChar h2, ihs, Nat.div_add_mod]

theorem unhexlify_props :
    ∀ (cs : List Char) (b : List Nat), unhexlifyChars? cs = some b →
      cs.length = 2 * b.length ∧ ∀ c ∈ cs, (hexDigitVal? c).isSome = true
  | [], b, h => by
    simp only [unhexlifyChars?, Option.some.injEq] at h
    subst h
    simp
  | [_], _, h => by simp [unhexlifyChars?] at h
  | c1 :: c2 :: rest, b, h => by
    simp only [unhexlifyChars?] at h
    cases h1 : hexDigitVal? c1 with
    | none => rw [h1] at h; simp at h
    | some hv =>
      cases h2 : hexDigitVal? c2 with
      | none => rw [h1, h2] at h; simp at h
      | some lv =>
        cases h3 : unhexlifyChars? rest with
        | none => rw [h1, h2, h3] at h; simp at h
        | some tail =>
          rw [h1, h2, h3] at h
          simp only [Option.some.injEq] at h
          subst h
          obtain ⟨hlen, hhex⟩ := unhexlify_props rest tail h3
          refine ⟨by simp [hlen]; omega, ?_⟩
          intro c hc
          rcases hc with _ | ⟨_, hc⟩
          · simp [h1]
          · rcases hc with _ | ⟨_, hc⟩
            · simp [h2]
            · exact hhex c hc

theorem hexlifyChars_length (b : List Nat) : (hexlifyChars b).length = 2 * b.length := by
  induction b with
  | nil => rfl
  | cons a as ih => simp [hexlifyChars, ih]; omega

theorem isLowerHexDigit_hexDigitChar : ∀ {n : Nat}, n < 16 →
    Chiron.isLowerHexDigit (hexDigitChar n) = true := by
  intro n h
  interval_cases n <;> decide

theorem hexlifyChars_all_lower :
    ∀ (b : List Nat), (∀ x ∈ b, x < 256) →
      ∀ c ∈ hexlifyChars b, Chiron.isLowerHexDigit c = true := by
  intro b
  induction b with
  | nil => intro _ c hc; simp [hexlifyChars] at hc
  | cons a as ih =>
    intro hb c hc
    have ha : a < 256 := hb a (by simp)
    simp only [hexlifyChars, List.mem_cons] at hc
    rcases hc with rfl | rfl | hc
    · exact isLowerHexDigit_hexDigitChar (by omega)
    · exact isLowerHexDigit_hexDigitChar (by omega)
    · exact ih (fun x hx => hb x (by simp [hx])) c hc

theorem pyWhitespace_eq_false_of_lower_hex {c : Char}
    (h : Chiron.isLowerHexDigit c = true) : Chiron.pyWhitespace c = false := by
  by_contra hws
  have hws' : Chiron.pyWhitespace c = true := by
    cases hcw : Chiron.pyWhitespace c
    · exact absurd hcw hws
    · rfl
  simp only [Chiron.pyWhitespace, Bool.or_eq_true, decide_eq_true_eq] at hws'
  rcases hws' with ((((rfl | rfl) | rfl) | rfl) | rfl) | rfl <;> exact absurd h (by decide)

theorem dropWhile_eq_self_of_none {l : List Char}
    (h : ∀ c ∈ l, Chiron.pyWhitespace c = false) :
    l.dropWhile Chiron.pyWhitespace = l := by
  cases l with
  | nil => rfl
  | cons a as => simp [List.dropWhile, h a (by simp)]

theorem pyStrip_of_no_whitespace {l : List Char}
    (h : ∀ c ∈ l, Chiron.pyWhitespace c = false) : Chiron.pyStrip ⟨l⟩ = ⟨l⟩ := by
  show String.mk _ = String.mk l
  rw [show (String.mk l).data = l from rfl]
  rw [dropWhile_eq_self_of_none h]
  rw [dropWhile_eq_self_of_none fun c hc => h c (List.mem_reverse.mp hc)]
  rw [List.reverse_reverse]

/-! ### Claim theorems -/

/-- C1: on every starting state in which `node_id` (a hex string denoting the
2-byte fingerprint) and `primary_counter` exist, `generate_item_id` returns
exactly 16 bytes — the current epoch-milliseconds timestamp in 7 bytes
big-endian, then the 2-byte node fingerprint read from the parameter store,
then the new counter value in 7 bytes big-endian — and the counter value it
persists and embeds is the previous `primary_counter` value plus exactly 1. -/
theorem C1_generate_item_id_format (tsMs : Nat) (s : Store) (hexStr : String)
    (fp : List Nat) (v : Int)
    (hts : tsMs < 256 ^ 7)
    (hn : alookup s.sysParameters "node_id" = some hexStr)
    (hfp : bytesFromhex? hexStr = some fp) (hfplen : fp.length = 2)
    (hc : alookup s.counters "primary_counter" = some v)
    (h0 : 0 ≤ v + 1) (h1 : v + 1 < (256 : Int) ^ 7) :
    Chiron.generate_item_id tsMs s =
      Except.ok (toBytesBE 7 tsMs ++ fp ++ toBytesBE 7 (v + 1).toNat,
        Store.setCounter s "primary_counter" (v + 1))
    ∧ (toBytesBE 7 tsMs ++ fp ++ toBytesBE 7 (v + 1).toNat).length = 16
    ∧ alookup (Store.setCounter s "primary_counter" (v + 1)).counters
        "primary_counter" = some (v + 1) := by
  refine ⟨generate_item_id_eq tsMs s hexStr fp v hts hn hfp hc h0 h1, ?_, ?_⟩
  · simp [toBytesBE_length, hfplen]
  · exact alookup_aset_of_mem s.counters "primary_counter" (v + 1) hc

/-- Concrete store for the C1 witness. -/
def c1Store : Store := ⟨[("node_id", "ab45")], [("primary_counter", 5)]⟩

/-- Witness for C1 at a concrete store, fingerprint and timestamp. -/
theorem C1_witness :
    Chiron.generate_item_id 1700000000000 c1Store =
      Except.ok (toBytesBE 7 1700000000000 ++ [171, 69] ++ toBytesBE 7 ((5 : Int) + 1).toNat,
        Store.setCounter c1Store "primary_counter" (5 + 1))
    ∧ (toBytesBE 7 1700000000000 ++ [171, 69] ++ toBytesBE 7 ((5 : Int) + 1).toNat).length = 16
    ∧ alookup (Store.setCounter c1Store "primary_counter" (5 + 1)).counters
        "primary_counter" = some (5 + 1) :=
  C1_generate_item_id_format 1700000000000 c1Store "ab45" [171, 69] 5
    (by norm_num) (by decide) (by decide) (by decide) (by decide)
    (by norm_num) (by norm_num)

/-- Store in which the C2 race is exercised. -/
def raceStore : Store := ⟨[("node_id", "ab45")], [("primary_counter", 5)]⟩

/-- The single identifier both racing callers return. -/
def raceDupId : List Nat := toBytesBE 7 1731000000000 ++ [171, 69] ++ toBytesBE 7 6

/-- C2: the counter update in `generate_item_id` is a plain read-then-update
with no lock or isolation directive, so the unserialized interleaving in which
two concurrent callers both read `primary_counter = 5` before either UPDATE
commits is permitted; both then persist 6 and return the identical 16-byte
identifier, so two concurrent calls can yield only one distinct identifier —
contradicting the claimed serialization and N-distinct-values property. -/
theorem C2_race_duplicate_ids :
    generate_item_id_race 1731000000000 1731000000000 raceStore =
      Except.ok (raceDupId, raceDupId, Store.setCounter raceStore "primary_counter" 6) := by
  decide

/-- C3: `ensure_parameter` and `ensure_counter` return the stored value and
leave the store unchanged whenever the key is already present, and re-running
`initialize_parameters` on a store that already has `node_id`, `trng_seed`,
`first_boot` and `primary_counter` leaves the store exactly as it was. -/
theorem C3_bootstrap_idempotent :
    (∀ (s : Store) (key : String) (value_fn : Unit → String) (v : String),
        alookup s.sysParameters key = some v →
        Chaos.ensure_parameter s key value_fn = (v, s))
    ∧ (∀ (s : Store) (key : String) (initial_fn : Unit → Int) (v : Int),
        alookup s.counters key = some v →
        Chaos.ensure_counter s key initial_fn = (v, s))
    ∧ (∀ (s : Store) (nodeIdV : String) (seedVal : Nat) (firstBootV : String)
        (a b c : String) (d : Int),
        alookup s.sysParameters "node_id" = some a →
        alookup s.sysParameters "trng_seed" = some b →
        alookup s.sysParameters "first_boot" = some c →
        alookup s.counters "primary_counter" = some d →
        Chaos.initialize_parameters s nodeIdV seedVal firstBootV = s) := by
  refine ⟨?_, ?_, ?_⟩
  · intro s key value_fn v h
    simp [Chaos.ensure_parameter, h]
  · intro s key initial_fn v h
    simp [Chaos.ensure_counter, h]
  · intro s nodeIdV seedVal firstBootV a b c d ha hb hc hd
    simp [Chaos.initialize_parameters, Chaos.ensure_parameter, Chaos.ensure_counter,
      ha, hb, hc, hd]

/-- Concrete already-initialized store for the C3 witness. -/
def c3Store : Store :=
  ⟨[("node_id", "ab45"), ("trng_seed", "00000000000007"), ("first_boot", "t0")],
    [("primary_counter", 9)]⟩

/-- Witness for C3 on a concrete already-initialized store. -/
theorem C3_witness :
    Chaos.ensure_parameter c3Store "node_id" (fun _ => "ffff") = ("ab45", c3Store)
    ∧ Chaos.ensure_counter c3Store "primary_counter" (fun _ => 0) = (9, c3Store)
    ∧ Chaos.initialize_parameters c3Store "ffff" 3 "t9" = c3Store :=
  ⟨C3_bootstrap_idempotent.1 c3Store "node_id" (fun _ => "ffff") "ab45" (by decide),
   C3_bootstrap_idempotent.2.1 c3Store "primary_counter" (fun _ => 0) 9 (by decide),
   C3_bootstrap_idempotent.2.2 c3Store "ffff" 3 "t9" "ab45" "00000000000007" "t0" 9
     (by decide) (by decide) (by decide) (by decide)⟩

/-- C4: `unhexid (hexid b) = b` for every 16-byte value `b`, and `unhexid`
fails with the invalid-identifier error on every string that is not exactly 32
hexadecimal characters (32 hexadecimal characters always decode to 16 bytes,
so this is the claim's failure condition). -/
theorem C4_hex_roundtrip :
    (∀ b : List Nat, b.length = 16 → (∀ x ∈ b, x < 256) →
        Chiron.unhexid (Chiron.hexid b) = Except.ok b)
    ∧ (∀ s : String,
        ¬ (s.data.length = 32 ∧ ∀ c ∈ s.data, (hexDigitVal? c).isSome = true) →
        Chiron.unhexid s = Except.error "Invalid item ID") := by
  constructor
  · intro b hlen hb
    have h := unhexlify_hexlify b hb
    simp [Chiron.unhexid, Chiron.hexid, h, hlen]
  · intro s hno
    cases hu : unhexlifyChars? s.data with
    | none => simp [Chiron.unhexid, hu]
    | some b =>
      obtain ⟨hlen, hhex⟩ := unhexlify_props s.data b hu
      have hb : b.length ≠ 16 := by
        intro h16
        exact hno ⟨by rw [hlen, h16], hhex⟩
      simp [Chiron.unhexid, hu, hb]

/-- Witness for C4: the round-trip at a concrete 16-byte value and the failure
at a concrete non-hex string. -/
theorem C4_witness :
    Chiron.unhexid (Chiron.hexid (List.replicate 16 171)) =
      Except.ok (List.replicate 16 171)
    ∧ Chiron.unhexid "zz" = Except.error "Invalid item ID" :=
  ⟨C4_hex_roundtrip.1 (List.replicate 16 171) (by decide) (by decide),
   C4_hex_roundtrip.2 "zz" (by decide)⟩

/-- Reference instant 2025-03-08 17:00 UTC (local noon EST in New York, the
day before the 2025 spring-forward transition). -/
def marchRefEst : Int := (20155 * 24 + 17) * usPerHour

/-- C5 counterexample: in `hestia.api_today` the boundary datetime is not
converted to UTC — its offset is the zone offset, not zero — and the value it
contributes to the comparison (its wall-clock fields, which is what the SQLite
binding renders) differs from the spec's UTC boundary instant at a concrete
New York reference time. -/
theorem C5_counterexample :
    sqliteBindValue (Hestia.today_end americaNewYork2025 marchRefEst) ≠
      spec_end_of_day_boundary_utc americaNewYork2025 marchRefEst
    ∧ (Hestia.today_end americaNewYork2025 marchRefEst).utcoffset ≠ some 0 := by
  constructor
  · decide
  · decide

/-- C5 (amended): `hermes.api_today` uses exactly the spec's boundary — the
instant 23:59:59.999999 on the zone-local calendar date of the current UTC
time, converted to UTC with the zone's own offset at that wall time — before
comparing; `hestia.api_today` computes the same zone-aware instant but omits
the conversion to UTC, so the value entering its comparison is the zone-local
wall-clock representation, displaced from the UTC boundary by the zone offset.
On the America/New_York model the boundary is DST-correct: the boundaries for
reference times 24 hours apart across the 2025 spring-forward transition are
23 hours apart in UTC, not 24. -/
theorem C5_end_of_day_boundary :
    (∀ (z : Zone) (nowUtc : Int),
        sqliteBindValue (Hermes.today_end z nowUtc) =
          spec_end_of_day_boundary_utc z nowUtc
        ∧ (Hermes.today_end z nowUtc).utcoffset = some 0)
    ∧ (∀ (z : Zone) (nowUtc : Int),
        PyDateTime.instant (Hestia.today_end z nowUtc) =
          spec_end_of_day_boundary_utc z nowUtc
        ∧ sqliteBindValue (Hestia.today_end z nowUtc) =
            spec_end_of_day_boundary_utc z nowUtc +
              z.offsetAtWall (endOfDayWall z nowUtc))
    ∧ spec_end_of_day_boundary_utc americaNewYork2025 marchRefEst =
        (nyMar9 * 24 + 5) * usPerHour - 1
    ∧ spec_end_of_day_boundary_utc americaNewYork2025 (marchRefEst + 24 * usPerHour) -
        spec_end_of_day_boundary_utc americaNewYork2025 marchRefEst =
          23 * usPerHour := by
  refine ⟨?_, ?_, by decide, by decide⟩
  · intro z nowUtc
    exact ⟨rfl, rfl⟩
  · intro z nowUtc
    constructor
    · rfl
    · simp only [Hestia.today_end, sqliteBindValue, spec_end_of_day_boundary_utc,
        endOfDayWall]
      ring

/-- Due-timestamp tiebreak the claim specifies for equal-priority rows: due
ascending with absent due timestamps last. -/
def dueAscNullsLast (a b : ItemRow) : Bool :=
  match a.due_date, b.due_date with
  | some x, some y => decide (x ≤ y)
  | some _, none => true
  | none, none => true
  | none, some _ => false

/-- The ordering the claim asserts between consecutive result rows: priority
descending, then due ascending with absent due timestamps last. -/
def claimOrderRel (a b : ItemRow) : Bool :=
  decide (b.priority < a.priority) ||
    (decide (a.priority = b.priority) && dueAscNullsLast a b)

/-- Equal-priority row whose due timestamp is later but which is scanned
first. -/
def itemA : ItemRow := ⟨[1], "a", "pending", some 20, 0⟩

/-- Equal-priority row whose due timestamp is earlier but which is scanned
second. -/
def itemB : ItemRow := ⟨[2], "b", "pending", some 10, 0⟩

/-- C6 counterexample: the `api_today` query orders only by `priority DESC`;
with two equal-priority rows whose due timestamps are in descending table
order, the returned order keeps `itemA` (due 20) before `itemB` (due 10),
violating the claimed due-ascending tiebreak. -/
theorem C6_counterexample :
    api_today_rows [itemA, itemB] 100 = [itemA, itemB]
    ∧ claimOrderRel itemA itemB = false := by
  constructor
  · decide
  · decide

/-- C6 (amended): given a validated zone, the due-today query returns exactly
the records whose status is not "done" and whose due timestamp is absent or ≤
the computed end-of-day boundary, ordered by priority descending; the query
requests no further ordering, so equal-priority records are not ordered by
due timestamp. -/
theorem C6_api_today_rows :
    ∀ (items : List ItemRow) (todayEnd : Int),
      (api_today_rows items todayEnd).Pairwise prioDescRel
      ∧ ∀ it : ItemRow,
          it ∈ api_today_rows items todayEnd ↔
            it ∈ items ∧ api_today_filter todayEnd it = true := by
  intro items todayEnd
  constructor
  · exact List.sorted_insertionSort prioDescRel _
  · intro it
    simp [api_today_rows, List.mem_filter]

/-- C7: for two identifiers generated sequentially by the same node — same
node fingerprint, second timestamp ≥ the first, second embedded counter value
greater than the first, both counter values below 2^56 — the later 16-byte
identifier is lexicographically ≥ the earlier one. -/
theorem C7_lexicographic_monotone (ts1 ts2 : Nat) (s1 s2 : Store)
    (hexStr : String) (fp : List Nat) (v1 v2 : Int)
    (id1 id2 : List Nat) (s1x s2x : Store)
    (hts : ts1 ≤ ts2) (hts2 : ts2 < 256 ^ 7)
    (hn1 : alookup s1.sysParameters "node_id" = some hexStr)
    (hn2 : alookup s2.sysParameters "node_id" = some hexStr)
    (hfp : bytesFromhex? hexStr = some fp)
    (hc1 : alookup s1.counters "primary_counter" = some v1)
    (hc2 : alookup s2.counters "primary_counter" = some v2)
    (hlt : v1 < v2) (h0 : 0 ≤ v1 + 1) (h1 : v2 + 1 < (256 : Int) ^ 7)
    (hg1 : Chiron.generate_item_id ts1 s1 = Except.ok (id1, s1x))
    (hg2 : Chiron.generate_item_id ts2 s2 = Except.ok (id2, s2x)) :
    bytesLe id1 id2 = true := by
  have hpow : (256 : Int) ^ 7 = 72057594037927936 := by norm_num
  have h1' : v1 + 1 < (256 : Int) ^ 7 := by rw [hpow] at h1 ⊢; omega
  have h02 : 0 ≤ v2 + 1 := by omega
  have e1 := generate_item_id_eq ts1 s1 hexStr fp v1 (lt_of_le_of_lt hts hts2)
    hn1 hfp hc1 h0 h1'
  have e2 := generate_item_id_eq ts2 s2 hexStr fp v2 hts2 hn2 hfp hc2 h02 h1
  rw [hg1] at e1
  rw [hg2] at e2
  simp only [Except.ok.injEq, Prod.mk.injEq] at e1 e2
  obtain ⟨hid1, -⟩ := e1
  obtain ⟨hid2, -⟩ := e2
  rw [hid1, hid2]
  have m1 : bytesLe (toBytesBE 7 ts1) (toBytesBE 7 ts2) = true :=
    bytesLe_toBytesBE_mono 7 hts
  have m2 : bytesLe (toBytesBE 7 (v1 + 1).toNat) (toBytesBE 7 (v2 + 1).toNat) = true :=
    bytesLe_toBytesBE_mono 7 (by omega)
  have inner : bytesLe (toBytesBE 7 ts1 ++ fp) (toBytesBE 7 ts2 ++ fp) = true :=
    bytesLe_append (by simp [toBytesBE_length]) m1 (bytesLe_refl fp)
  exact bytesLe_append (by simp [toBytesBE_length]) inner m2

/-- First store for the C7 witness (counter 5). -/
def c7Store1 : Store := ⟨[("node_id", "ab45")], [("primary_counter", 5)]⟩

/-- Second store for the C7 witness (counter 8). -/
def c7Store2 : Store := ⟨[("node_id", "ab45")], [("primary_counter", 8)]⟩

/-- Witness for C7: two concrete sequential generations on the same node. -/
theorem C7_witness :
    bytesLe (toBytesBE 7 100 ++ [171, 69] ++ toBytesBE 7 6)
      (toBytesBE 7 200 ++ [171, 69] ++ toBytesBE 7 9) = true :=
  C7_lexicographic_monotone 100 200 c7Store1 c7Store2 "ab45" [171, 69] 5 8
    (toBytesBE 7 100 ++ [171, 69] ++ toBytesBE 7 6)
    (toBytesBE 7 200 ++ [171, 69] ++ toBytesBE 7 9)
    (Store.setCounter c7Store1 "primary_counter" 6)
    (Store.setCounter c7Store2 "primary_counter" 9)
    (by norm_num) (by norm_num) (by decide) (by decide) (by decide)
    (by decide) (by decide) (by norm_num) (by norm_num) (by norm_num)
    (by decide) (by decide)

/-- Stored secret content consisting of 64 hex characters plus a trailing
newline, for the C8 counterexample. -/
def c8NoisyContent : String := ⟨List.replicate 64 'a' ++ ['\n']⟩

/-- C8 counterexample: this stored content does not match 64 lowercase hex
characters (it is 65 characters long), yet `get_secret` strips whitespace
before validating and returns the stripped text instead of terminating
fatally — refuting the claimed iff on the raw stored content. -/
theorem C8_counterexample :
    Chiron.matchesSecretFormat c8NoisyContent = false
    ∧ (Chiron.get_secret ⟨true, c8NoisyContent⟩ false []).1 =
        Except.ok ⟨List.replicate 64 'a'⟩ := by
  constructor
  · decide
  · decide

/-- C8 (amended): with the file present and regeneration not forced,
`get_secret` returns the stored content stripped of leading and trailing
whitespace iff the stripped content matches exactly 64 lowercase hexadecimal
characters, and otherwise terminates fatally; in both cases the file is left
unchanged (never rewritten on a validation failure); and a freshly generated
secret always passes this validation on reload. -/
theorem C8_get_secret :
    (∀ (content : String) (rb : List Nat),
        Chiron.matchesSecretFormat (Chiron.pyStrip content) = true →
        Chiron.get_secret ⟨true, content⟩ false rb =
          (Except.ok (Chiron.pyStrip content), ⟨true, content⟩))
    ∧ (∀ (content : String) (rb : List Nat),
        Chiron.matchesSecretFormat (Chiron.pyStrip content) = false →
        Chiron.get_secret ⟨true, content⟩ false rb =
          (Except.error "FATAL: Secret file corrupted (invalid format)",
            ⟨true, content⟩))
    ∧ (∀ rb : List Nat, rb.length = 32 → (∀ x ∈ rb, x < 256) →
        ∀ (fs : Chiron.SecretFile) (regen : Bool), (regen || !fs.present) = true →
        Chiron.get_secret fs regen rb =
          (Except.ok ⟨hexlifyChars rb⟩, ⟨true, ⟨hexlifyChars rb⟩⟩)
        ∧ Chiron.get_secret ⟨true, ⟨hexlifyChars rb⟩⟩ false [] =
          (Except.ok ⟨hexlifyChars rb⟩, ⟨true, ⟨hexlifyChars rb⟩⟩)) := by
  refine ⟨?_, ?_, ?_⟩
  · intro content rb h
    simp [Chiron.get_secret, h]
  · intro content rb h
    simp [Chiron.get_secret, h]
  · intro rb hlen hb fs regen hre
    have hall : ∀ c ∈ hexlifyChars rb, Chiron.isLowerHexDigit c = true :=
      hexlifyChars_all_lower rb hb
    have hstrip : Chiron.pyStrip ⟨hexlifyChars rb⟩ = ⟨hexlifyChars rb⟩ :=
      pyStrip_of_no_whitespace fun c hc =>
        pyWhitespace_eq_false_of_lower_hex (hall c hc)
    have hm : Chiron.matchesSecretFormat ⟨hexlifyChars rb⟩ = true := by
      simp only [Chiron.matchesSecretFormat, Bool.and_eq_true, beq_iff_eq,
        List.all_eq_true]
      exact ⟨by rw [hexlifyChars_length rb, hlen], fun c hc => hall c (by simpa using hc)⟩
    constructor
    · simp [Chiron.get_secret, hre]
    · simp [Chiron.get_secret, hstrip, hm]

/-- Witness for C8 at concrete contents and random bytes. -/
theorem C8_witness :
    Chiron.get_secret ⟨true, ⟨List.replicate 64 'b'⟩⟩ false [] =
      (Except.ok (Chiron.pyStrip ⟨List.replicate 64 'b'⟩), ⟨true, ⟨List.replicate 64 'b'⟩⟩)
    ∧ Chiron.get_secret ⟨true, "xyz"⟩ false [] =
      (Except.error "FATAL: Secret file corrupted (invalid format)", ⟨true, "xyz"⟩)
    ∧ (Chiron.get_secret ⟨false, ""⟩ false (List.replicate 32 0) =
        (Except.ok ⟨hexlifyChars (List.replicate 32 0)⟩,
          ⟨true, ⟨hexlifyChars (List.replicate 32 0)⟩⟩)
      ∧ Chiron.get_secret ⟨true, ⟨hexlifyChars (List.replicate 32 0)⟩⟩ false [] =
        (Except.ok ⟨hexlifyChars (List.replicate 32 0)⟩,
          ⟨true, ⟨hexlifyChars (List.replicate 32 0)⟩⟩)) :=
  ⟨C8_get_secret.1 ⟨List.replicate 64 'b'⟩ [] (by decide),
   C8_get_secret.2.1 "xyz" [] (by decide),
   C8_get_secret.2.2 (List.replicate 32 0) (by decide) (by decide)
     ⟨false, ""⟩ false (by decide)⟩

/-- C9 counterexample: `secrets.randbits(56)` can return 0 and
`initialize_parameters` applies no zero-exclusion, so a fresh installation can
be seeded with `primary_counter = 0`, violating the claimed `0 < v`. -/
theorem C9_counterexample :
    alookup (Chaos.initialize_parameters Chaos.emptyStore "ab45" 0 "t0").counters
      "primary_counter" = some 0
    ∧ ¬ ((0 : Int) < 0) := by
  constructor
  · decide
  · decide

/-- C9 (amended): on first bootstrap `primary_counter` is seeded with the
56-bit value returned by `secrets.randbits(56)`: for every possible seed
`r < 2^56` the initial counter equals `r`, so `0 ≤ v < 2^56` — but zero is not
excluded. -/
theorem C9_initial_counter_range :
    ∀ (r : Nat) (nodeIdV firstBootV : String), r < 2 ^ 56 →
      alookup (Chaos.initialize_parameters Chaos.emptyStore nodeIdV r
        firstBootV).counters "primary_counter" = some (r : Int)
      ∧ 0 ≤ (r : Int) ∧ (r : Int) < 2 ^ 56 := by
  intro r nodeIdV firstBootV hr
  exact ⟨rfl, Int.natCast_nonneg r, by exact_mod_cast hr⟩

/-- Witness for C9 at a concrete seed. -/
theorem C9_witness :
    alookup (Chaos.initialize_parameters Chaos.emptyStore "ab45" 7 "t0").counters
      "primary_counter" = some ((7 : Nat) : Int)
    ∧ 0 ≤ ((7 : Nat) : Int) ∧ ((7 : Nat) : Int) < 2 ^ 56 :=
  C9_initial_counter_range 7 "ab45" "t0" (by norm_num)

/-- C10: the duplicated definitions in `hestia.py` are extensionally equal to
those in `chiron.py`: for every store state `generate_item_id` returns the
same identifier and fails under the same conditions in both files, and for
every byte string or hex string `hexid` and `unhexid` return the same result
and fail under the same conditions. -/
theorem C10_duplicates_extensionally_equal :
    (∀ (tsMs : Nat) (s : Store),
        Chiron.generate_item_id tsMs s = Hestia.generate_item_id tsMs s)
    ∧ (∀ b : List Nat, Chiron.hexid b = Hestia.hexid b)
    ∧ (∀ s : String, Chiron.unhexid s = Hestia.unhexid s) :=
  ⟨fun _ _ => rfl, fun _ => rfl, fun _ => rfl⟩

